import Mathlib

/-!
Verification of the content-selection pipeline of the crypto-discord-bot
repository, shallowly embedded in Lean 4.

The embedding follows the Python sources in src/:
  - src/scorer.py   (ContentScorer: similarity, dedup cache, KOL scoring,
                     categorization, diversity selection)
  - src/enhancer.py (ContentEnhancer.enhance_items)
  - src/config.py   (constants: CONTENT_KEYWORD_MULTIPLIERS, RECENCY_BONUS,
                     CACHE_RETENTION_DAYS, DEDUP_KEYWORD_THRESHOLD)
Python regular-expression searches over these fixed patterns are embedded as
executable character-list matchers (an ASCII model of Python's \w, \s classes).
Python floats appear only as similarity ratios of small naturals and are
modelled exactly by rationals.  Mutable dicts flowing through the pipeline are
modelled as a record with optional fields, mirroring dict.get defaults.
-/

/-- ASCII model of Python's regex word character class: [a-zA-Z0-9_]. -/
def isWordChar (c : Char) : Bool := c.isAlphanum || c == '_'

/-- Substring containment on character lists: does the needle occur
contiguously inside the haystack?  Embeds a Python re.search of a literal. -/
def listContainsSub (n : List Char) : List Char → Bool
  | [] => n.isEmpty
  | c :: t => n.isPrefixOf (c :: t) || listContainsSub n t

/-- Substring containment on strings (case-sensitive; callers lower-case both
sides to embed re.IGNORECASE or Python str.lower). -/
def containsSub (n s : String) : Bool := listContainsSub n.toList s.toList

/-- Helper for word-boundary matching: after a candidate occurrence of the
word, the next character (if any) must not be a word character. -/
def boundaryAfter (w : List Char) (s : List Char) : Bool :=
  match s.drop w.length with
  | [] => true
  | d :: _ => !isWordChar d

/-- Scans for an occurrence of the word with a word boundary on both sides;
the Boolean argument records whether the previous character was a word
character.  Embeds a Python re.search of a \b-delimited literal. -/
def wordOccursAux (w : List Char) : Bool → List Char → Bool
  | prev, [] => !prev && w.isEmpty
  | prev, c :: rest =>
    (!prev && w.isPrefixOf (c :: rest) && boundaryAfter w (c :: rest))
      || wordOccursAux w (isWordChar c) rest

/-- Word-boundary-delimited occurrence of a literal word in a string. -/
def wordOccurs (w s : String) : Bool := wordOccursAux w.toList false s.toList

/-- Matcher for the regex fragment a dollar sign followed by one or more
digits followed by the letter k (pattern \x24\d+k from config.py). -/
def digitsThenK : List Char → Bool
  | [] => false
  | c :: rest =>
    if c == '$' then
      (let ds := rest.takeWhile Char.isDigit
       !ds.isEmpty && (match rest.dropWhile Char.isDigit with
                       | 'k' :: _ => true
                       | _ => false)) || digitsThenK rest
    else digitsThenK rest

/-- Finds the second literal at some position such that no newline occurs
before it; used to embed the dot-star regex connective (dot does not match
newline in Python by default). -/
def findNoNewline (p : List Char) : List Char → Bool
  | [] => p.isEmpty
  | c :: rest => p.isPrefixOf (c :: rest) || (!(c == '\n') && findNoNewline p rest)

/-- Matcher for the regex shape first-literal dot-star second-literal. -/
def dotStarMatch (p q : List Char) : List Char → Bool
  | [] => p.isEmpty && findNoNewline q []
  | c :: rest =>
    (p.isPrefixOf (c :: rest) && findNoNewline q ((c :: rest).drop p.length))
      || dotStarMatch p q rest

/-- Worker for stripNoise.  Each step consumes at least one character, so a
fuel budget of the input length always suffices; structural recursion on the
fuel keeps the definition kernel-computable. -/
def stripNoiseGo : Nat → List Char → List Char
  | 0, s => s
  | _, [] => []
  | fuel + 1, c :: rest =>
    if ['h', 't', 't', 'p'].isPrefixOf (c :: rest)
        && (match (c :: rest).drop 4 with
            | [] => false
            | d :: _ => !d.isWhitespace) then
      stripNoiseGo fuel (((c :: rest).drop 4).dropWhile (fun d => !d.isWhitespace))
    else if c == '@' && (match rest with | [] => false | d :: _ => isWordChar d) then
      stripNoiseGo fuel (rest.dropWhile isWordChar)
    else if c == '#' && (match rest with | [] => false | d :: _ => isWordChar d) then
      stripNoiseGo fuel (rest.dropWhile isWordChar)
    else
      c :: stripNoiseGo fuel rest

/-- Embeds re.sub of the pattern http non-space-run, or at-sign word-run, or
hash word-run, with the empty replacement (scorer.py _extract_keywords line
87).  Matches are removed greedily, scanning left to right. -/
def stripNoise (s : List Char) : List Char := stripNoiseGo s.length s

/-- Worker for wordRuns, fueled like stripNoiseGo. -/
def wordRunsGo : Nat → List Char → List (List Char)
  | 0, _ => []
  | _, [] => []
  | fuel + 1, c :: rest =>
    if isWordChar c then
      (c :: rest.takeWhile isWordChar) :: wordRunsGo fuel (rest.dropWhile isWordChar)
    else
      wordRunsGo fuel rest

/-- Splits a character list into its maximal runs of word characters; embeds
re.findall of a word-run pattern (the boundary anchors accept exactly the
maximal runs).  When the head is a word character the maximal run is the head
followed by the longest word-character run of the tail. -/
def wordRuns (s : List Char) : List (List Char) := wordRunsGo s.length s

/-- Structural embedding of Python str.lower (kernel-computable, unlike the
position-based library toLower). -/
def lowerStr (s : String) : String := String.mk (s.toList.map Char.toLower)

/-- ContentScorer._extract_keywords (scorer.py lines 76-90): strip URLs,
at-mentions and hashtags, lower-case, and keep the maximal word runs of
length at least 3. -/
def extractKeywords (text : String) : List String :=
  ((wordRuns ((stripNoise text.toList).map Char.toLower)).filter
    (fun r => 3 ≤ r.length)).map (fun r => String.mk r)

/-- A content item flowing through the pipeline.  Python passes dynamic dicts;
each field models one key read by the embedded code, as an optional value so
that dict.get defaults are expressed by Option.getD.  Fields absent from a
dict are modelled as none. -/
structure Item where
  title : Option String := none
  summary : Option String := none
  text : Option String := none
  source : Option String := none
  username : Option String := none
  timestamp : Option String := none
  base_score : Option Int := none
  category : Option String := none
  source_name : Option String := none
deriving DecidableEq, Repr

/-- A persisted cache record (scorer.py add_to_cache writes text, timestamp
and category; entries read back from disk may lack keys). -/
structure CEntry where
  text : Option String := none
  timestamp : Option String := none
  category : Option String := none
deriving DecidableEq, Repr

/-- DEDUP_KEYWORD_THRESHOLD from config.py line 118 (0.6, modelled exactly). -/
def DEDUP_KEYWORD_THRESHOLD : ℚ := mkRat 6 10

/-- CACHE_RETENTION_DAYS from config.py line 117. -/
def CACHE_RETENTION_DAYS : Nat := 7

/-- ContentScorer._calculate_similarity (scorer.py lines 92-113): keyword
overlap ratio, zero when either keyword set is empty. -/
def calculateSimilarity (text1 text2 : String) : ℚ :=
  let keywords1 := (extractKeywords text1).toFinset
  let keywords2 := (extractKeywords text2).toFinset
  if keywords1 = ∅ ∨ keywords2 = ∅ then 0
  else
    let intersection := (keywords1 ∩ keywords2).card
    let maxLen := max keywords1.card keywords2.card
    if 0 < maxLen then (intersection : ℚ) / (maxLen : ℚ) else 0

/-- ContentScorer.is_duplicate (scorer.py lines 115-134): true when some
cached value is at least DEDUP_KEYWORD_THRESHOLD similar to the text. -/
def isDuplicate (cache : List (String × CEntry)) (text : String) : Bool :=
  cache.any (fun kv =>
    decide (DEDUP_KEYWORD_THRESHOLD ≤ calculateSimilarity text (kv.2.text.getD "")))

/-- Pattern "SEC|regulation|lawsuit" of CONTENT_KEYWORD_MULTIPLIERS, applied
with re.IGNORECASE to the lower-cased post text (literals lower-cased). -/
def kolPatRegulatory (t : String) : Bool :=
  containsSub "sec" t || containsSub "regulation" t || containsSub "lawsuit" t

/-- Pattern "ETF|approval" of CONTENT_KEYWORD_MULTIPLIERS. -/
def kolPatEtf (t : String) : Bool :=
  containsSub "etf" t || containsSub "approval" t

/-- Pattern "hack|exploit|vulnerability" of CONTENT_KEYWORD_MULTIPLIERS. -/
def kolPatHack (t : String) : Bool :=
  containsSub "hack" t || containsSub "exploit" t || containsSub "vulnerability" t

/-- Pattern "all-time high|ATH|new high" of CONTENT_KEYWORD_MULTIPLIERS. -/
def kolPatAth (t : String) : Bool :=
  containsSub "all-time high" t || containsSub "ath" t || containsSub "new high" t

/-- Pattern "price target|dollar-digits-k" of CONTENT_KEYWORD_MULTIPLIERS. -/
def kolPatPriceTarget (t : String) : Bool :=
  containsSub "price target" t || digitsThenK t.toList

/-- Pattern "partnership|acquisition" of CONTENT_KEYWORD_MULTIPLIERS. -/
def kolPatPartnership (t : String) : Bool :=
  containsSub "partnership" t || containsSub "acquisition" t

/-- Pattern "BTC.*ETH|ETH.*BTC" of CONTENT_KEYWORD_MULTIPLIERS. -/
def kolPatBtcEth (t : String) : Bool :=
  dotStarMatch "btc".toList "eth".toList t.toList
    || dotStarMatch "eth".toList "btc".toList t.toList

/-- CONTENT_KEYWORD_MULTIPLIERS from config.py lines 69-77, in dict insertion
order, each regex pattern embedded as its matcher. -/
def CONTENT_KEYWORD_MULTIPLIERS : List ((String → Bool) × Int) :=
  [(kolPatRegulatory, 15),
   (kolPatEtf, 15),
   (kolPatHack, 20),
   (kolPatAth, 10),
   (kolPatPriceTarget, 10),
   (kolPatPartnership, 10),
   (kolPatBtcEth, 5)]

/-- RECENCY_BONUS from config.py lines 79-83. -/
def RECENCY_BONUS : List (String × Int) :=
  [("2_hours", 15), ("6_hours", 10), ("12_hours", 5)]

/-- ContentScorer._calculate_kol_score (scorer.py lines 136-165): base score,
plus each matching keyword multiplier added in, plus the flat recency bonus
whenever the timestamp string is non-empty (the code reads the 2-hour bonus
unconditionally). -/
def calculateKolScore (post : Item) : Int :=
  let base := post.base_score.getD 0
  let text := lowerStr (post.text.getD "")
  let score := CONTENT_KEYWORD_MULTIPLIERS.foldl
    (fun s pm => if pm.1 text then s + pm.2 else s) base
  let timestamp := post.timestamp.getD ""
  if timestamp ≠ "" then score + (RECENCY_BONUS.lookup "2_hours").getD 15 else score

/-- The concatenated and lower-cased title and summary of a news item
(scorer.py line 259). -/
def newsText (item : Item) : String :=
  lowerStr ((item.title.getD "") ++ (item.summary.getD ""))

/-- First categorizer rule (scorer.py line 262): sec, regulation, law,
policy or etf as plain substrings. -/
def macroPat (t : String) : Bool :=
  containsSub "sec" t || containsSub "regulation" t || containsSub "law" t
    || containsSub "policy" t || containsSub "etf" t

/-- Second categorizer rule (scorer.py line 264): inflow, outflow, whale,
transfer or drain as plain substrings. -/
def capitalPat (t : String) : Bool :=
  containsSub "inflow" t || containsSub "outflow" t || containsSub "whale" t
    || containsSub "transfer" t || containsSub "drain" t

/-- Third categorizer rule (scorer.py line 266): word-bounded coin names. -/
def majorPat (t : String) : Bool :=
  wordOccurs "bitcoin" t || wordOccurs "btc" t || wordOccurs "ethereum" t
    || wordOccurs "eth" t || wordOccurs "solana" t || wordOccurs "sol" t

/-- Fourth categorizer rule (scorer.py line 268). -/
def altPat (t : String) : Bool :=
  containsSub "altcoin" t || containsSub "token" t || containsSub "memecoin" t
    || containsSub "trending" t || containsSub "surge" t || containsSub "pump" t

/-- Fifth categorizer rule (scorer.py line 270). -/
def techPat (t : String) : Bool :=
  containsSub "layer" t || containsSub "l2" t || containsSub "defi" t
    || containsSub "rwa" t || containsSub "ai" t || containsSub "zk" t
    || containsSub "protocol" t

/-- ContentScorer._categorize_news (scorer.py lines 249-273): first matching
rule wins; default macro_policy. -/
def categorizeNews (item : Item) : String :=
  let text := newsText item
  if macroPat text then "macro_policy"
  else if capitalPat text then "capital_flow"
  else if majorPat text then "major_coins"
  else if altPat text then "altcoins_trending"
  else if techPat text then "tech_narratives"
  else "macro_policy"

/-- The closed set of news categories in the alphabetical order produced by
Python sorted() over the grouping dict's keys (scorer.py lines 316 and 328);
iterating all five and skipping empty groups is equivalent to iterating the
sorted keys actually present. -/
def CATEGORIES_SORTED : List String :=
  ["altcoins_trending", "capital_flow", "macro_policy", "major_coins", "tech_narratives"]

/-- The group of news items assigned to a category (scorer.py lines 305-310:
items are appended in input order, so the group is the order-preserving
filter). -/
def newsGroup (news_items : List Item) (cat : String) : List Item :=
  news_items.filter (fun it => categorizeNews it == cat)

/-- The in-place mutation item brackets category brackets assign cat and
item brackets source_name brackets assign source-or-Unknown performed when a
news item is selected (scorer.py lines 322-323 and 338-339). -/
def setCatSource (it : Item) (cat : String) : Item :=
  { it with category := some cat, source_name := some (it.source.getD "Unknown") }

/-- The mutation applied to the chosen KOL post (scorer.py lines 299-300). -/
def setKolFields (k : Item) : Item :=
  { k with category := some "kol_insights",
           source_name := some (k.username.getD "Unknown") }

/-- First selection pass (scorer.py lines 316-325): one item per category in
sorted category order, stopping once the target count is reached. -/
def firstPass (groups : String → List Item) (total : Nat) :
    List String → List Item → (String → Nat) → List Item × (String → Nat)
  | [], sel, cnt => (sel, cnt)
  | cat :: cats, sel, cnt =>
    if total ≤ sel.length then (sel, cnt)
    else
      match groups cat with
      | [] => firstPass groups total cats sel cnt
      | h :: _ =>
        if cnt cat < 1 then
          firstPass groups total cats (sel ++ [setCatSource h cat])
            (fun c => if c = cat then 1 else cnt c)
        else firstPass groups total cats sel cnt

/-- Inner loop of the second selection pass (scorer.py lines 334-341): walk
the group past its head, admitting items not already selected; the
per-category cap is NOT re-checked inside this loop. -/
def fillFromCat (total : Nat) (cat : String) :
    List Item → List Item → (String → Nat) → List Item × (String → Nat)
  | [], sel, cnt => (sel, cnt)
  | it :: its, sel, cnt =>
    if total ≤ sel.length then (sel, cnt)
    else if it ∈ sel then fillFromCat total cat its sel cnt
    else
      fillFromCat total cat its (sel ++ [setCatSource it cat])
        (fun c => if c = cat then cnt cat + 1 else cnt c)

/-- Second selection pass (scorer.py lines 328-341): for each category whose
count is below 2, fill from the group's tail (the head is skipped by the
slice group brackets 1 colon brackets even when the first pass never took
it). -/
def secondPass (groups : String → List Item) (total : Nat) :
    List String → List Item → (String → Nat) → List Item × (String → Nat)
  | [], sel, cnt => (sel, cnt)
  | cat :: cats, sel, cnt =>
    if total ≤ sel.length then (sel, cnt)
    else if cnt cat < 2 then
      let r := fillFromCat total cat ((groups cat).drop 1) sel cnt
      secondPass groups total cats r.1 r.2
    else secondPass groups total cats sel cnt

/-- Step 1 of select_top_items_with_diversity (scorer.py lines 296-302): the
initial selection and category counts, seeded with the first KOL post when
one is available. -/
def initSelection (kol_posts : List Item) : List Item × (String → Nat) :=
  match kol_posts with
  | [] => ([], fun _ => 0)
  | k :: _ => ([setKolFields k], fun c => if c == "kol_insights" then 1 else 0)

/-- ContentScorer.select_top_items_with_diversity (scorer.py lines 275-344).
The target count is a count, modelled as a natural number. -/
def selectTopItemsWithDiversity (kol_posts news_items : List Item)
    (total_items : Nat) : List Item :=
  let init := initSelection kol_posts
  let groups := newsGroup news_items
  let r1 := firstPass groups total_items CATEGORIES_SORTED init.1 init.2
  let r2 := secondPass groups total_items CATEGORIES_SORTED r1.1 r1.2
  r2.1.take total_items

/-- Outcome of the external file read performed by _load_cache: the cache
file may be missing, the open/parse may raise, or it yields entries. -/
inductive ReadResult where
  | missing : ReadResult
  | failed : String → ReadResult
  | content : List (String × CEntry) → ReadResult
deriving DecidableEq

/-- Outcome of the external file write performed by _save_cache. -/
inductive WriteOutcome where
  | ok : WriteOutcome
  | failed : String → WriteOutcome
deriving DecidableEq

/-- Python string less-than: lexicographic comparison by code points,
embedded structurally on character lists. -/
def pyLtChars : List Char → List Char → Bool
  | [], [] => false
  | [], _ :: _ => true
  | _ :: _, [] => false
  | a :: as, b :: bs => a.toNat < b.toNat || (a == b && pyLtChars as bs)

/-- Python string less-than on strings. -/
def pyLt (a b : String) : Bool := pyLtChars a.toList b.toList

/-- The pruning comprehension of _load_cache (scorer.py lines 58-61): keep
exactly the entries whose timestamp string compares greater than the cutoff
(Python compares ISO timestamp strings lexicographically by code points; a
missing timestamp reads as the empty string). -/
def pruneEntries (entries : List (String × CEntry)) (cutoff : String) :
    List (String × CEntry) :=
  entries.filter (fun kv => pyLt cutoff (kv.2.timestamp.getD ""))

/-- ContentScorer._load_cache (scorer.py lines 43-66) with the external read
made explicit: a missing file yields the empty cache; a raising read is
caught, logged and yields the empty cache; a successful read is pruned.  The
Except result records whether the method itself raises (it never does). -/
def loadCache (r : ReadResult) (cutoff : String) :
    Except String (List (String × CEntry)) :=
  match r with
  | .missing => .ok []
  | .failed _ => .ok []
  | .content entries => .ok (pruneEntries entries cutoff)

/-- The raw file write of _save_cache before the try/except: raises exactly
when the external write fails. -/
def attemptWrite (w : WriteOutcome) : Except String Unit :=
  match w with
  | .ok => .ok ()
  | .failed e => .error e

/-- ContentScorer._save_cache (scorer.py lines 68-74): the write is wrapped
in try/except; a failure is logged (the returned list of log lines) and
swallowed. -/
def saveCache (w : WriteOutcome) : Except String (List String) :=
  match attemptWrite w with
  | .ok _ => .ok []
  | .error e => .ok ["Error saving cache: " ++ e]

/-- ContentScorer.add_to_cache (scorer.py lines 346-359): append the entry
under the synthetic key category underscore now, then persist.  The Except
result records whether the method raises. -/
def addToCache (cache : List (String × CEntry)) (item : Item) (now : String)
    (w : WriteOutcome) : Except String (List (String × CEntry)) :=
  let key := item.category.getD "unknown" ++ "_" ++ now
  let entry : CEntry :=
    { text := some (item.text.getD (item.title.getD "")),
      timestamp := some now,
      category := some (item.category.getD "") }
  let cache1 := cache ++ [(key, entry)]
  match saveCache w with
  | .ok _ => .ok cache1
  | .error e => .error e

/-- Result processing of ContentEnhancer.enhance_items (enhancer.py lines
259-267): the gathered results carry one entry per input item in input order
(asyncio.gather with return_exceptions true); an exception result is replaced
by the original item at the same index. -/
def processEnhanced : List Item → List (Except String Item) → List Item
  | _, [] => []
  | [], _ :: _ => []
  | orig :: origs, r :: rs =>
    (match r with | .error _ => orig | .ok v => v) :: processEnhanced origs rs

/-- ContentEnhancer.enhance_items (enhancer.py lines 239-274) with the
external gather made explicit: if the whole gather raises, the outer except
returns the input list unchanged; otherwise each per-item outcome is
processed. -/
def enhanceItems (items : List Item)
    (gathered : Except String (List (Except String Item))) : List Item :=
  match gathered with
  | .error _ => items
  | .ok results => processEnhanced items results

/-- Modelled from the spec: the Delivery Batcher of spec section 4.6 has no
implementation under src (the bot posts a single embed), so this definition
follows the spec's words: keep a running buffer; for each atomic block, if
appending would exceed the limit, flush the current non-empty buffer as a
completed batch and start a new buffer holding that block, otherwise append
the block to the buffer; flush the final non-empty buffer; never emit an
empty batch and never truncate a block. -/
def batchAux (limit : Nat) : List String → String → List String
  | [], buf => if buf = "" then [] else [buf]
  | b :: bs, buf =>
    if limit < buf.length + b.length then
      (if buf = "" then [] else [buf]) ++ batchAux limit bs b
    else
      batchAux limit bs (buf ++ b)

/-- Modelled from the spec: entry point of the Delivery Batcher (spec section
4.6), starting from an empty buffer. -/
def batchBlocks (blocks : List String) (limit : Nat) : List String :=
  batchAux limit blocks ""

/-- Concatenation of a list of strings, used to state that batching loses and
reorders nothing. -/
def joinAll : List String → String
  | [] => ""
  | s :: rest => s ++ joinAll rest

/-- Concrete KOL post used to settle the multiplicative-scoring claim: its
text matches exactly the hack pattern (multiplier 20) and the ETF pattern
(multiplier 15); no timestamp, so no recency bonus. -/
def examplePost : Item :=
  { text := some "Major hack hits exchange, ETF approval delayed",
    base_score := some 50 }

/-- The item of the categorizer ordering claim: title from the spec's
example, empty summary. -/
def exampleWhaleSec : Item :=
  { title := some "Whale transfers $50M to Binance amid new SEC filing",
    summary := some "" }

/-- Three distinct news items that all categorize as capital_flow and match
no earlier rule. -/
def whaleA : Item := { title := some "Whale alert alpha" }

/-- Second capital-flow item. -/
def whaleB : Item := { title := some "Whale alert beta" }

/-- Third capital-flow item. -/
def whaleC : Item := { title := some "Whale alert gamma" }

/-- An item whose text has an empty keyword set: both words are shorter than
three characters, so extraction drops them. -/
def shortTextItem : Item := { text := some "ab" }

/-- An item whose text has a non-empty keyword set. -/
def keywordTextItem : Item := { text := some "bitcoin pumps hard" }

/-- A KOL post used in selection examples. -/
def exampleKol : Item := { username := some "vitalik", text := some "gm" }

/-- Enhancer example items. -/
def enhA : Item := { title := some "first item" }

/-- Second enhancer example item. -/
def enhB : Item := { title := some "second item" }

/-- Enhanced form of the first enhancer example item. -/
def enhAplus : Item := { title := some "first item", summary := some "added" }

/-- Whether an item carries the reserved KOL category tag. -/
def kolTag (it : Item) : Bool := it.category == some "kol_insights"

/-! Theorems. -/

theorem foldl_add_matching (t : String) (l : List ((String → Bool) × Int))
    (init : Int) :
    l.foldl (fun s pm => if pm.1 t then s + pm.2 else s) init
      = init + ((l.filter (fun pm => pm.1 t)).map Prod.snd).sum := by
  induction l generalizing init with
  | nil => simp
  | cons head tail ih =>
    by_cases h : head.1 t
    · simp only [List.foldl_cons, h, if_true, List.filter_cons, List.map_cons,
        List.sum_cons, ih]
      ring
    · simp only [List.foldl_cons, h, if_false, List.filter_cons, List.map_cons, ih]
      simp [h]

/-- C1, corrected: the configured keyword multipliers are applied
additively, not multiplicatively: a KOL post's score is its base score plus
the sum of the multipliers of the matching patterns, plus the flat recency
bonus of 15 when a timestamp is present (scorer.py lines 146-165). -/
theorem kolScore_additive (post : Item) :
    calculateKolScore post =
      post.base_score.getD 0
        + ((CONTENT_KEYWORD_MULTIPLIERS.filter
            (fun pm => pm.1 (lowerStr (post.text.getD "")))).map Prod.snd).sum
        + (if post.timestamp.getD "" ≠ "" then 15 else 0) := by
  simp only [calculateKolScore, foldl_add_matching]
  have h15 : ((RECENCY_BONUS.lookup "2_hours").getD 15) = 15 := rfl
  by_cases h : post.timestamp.getD "" = ""
  · simp [h]
  · simp [h, h15]

/-- C1, counterexample: the post examplePost has base score 50 and matches
exactly two patterns with multipliers 15 and 20; the code yields
50 + 15 + 20 = 85, not the base times the product of the matching
multipliers, 50 * (15 * 20) = 15000. -/
theorem kolScore_multiplicative_cex :
    calculateKolScore examplePost = 85
      ∧ calculateKolScore examplePost ≠ 50 * (15 * 20) := by
  constructor
  · decide
  · decide

/-- C2, corrected: the categorizer checks the macro/policy patterns before
the capital-flow patterns (scorer.py lines 262-264), so any item whose
title-plus-summary matches a macro/policy pattern is categorized
macro_policy even when capital-flow patterns also match; in particular the
whale-transfer/SEC example resolves to macro_policy, not capital_flow. -/
theorem categorize_macro_first :
    (∀ item : Item, macroPat (newsText item) = true →
      categorizeNews item = "macro_policy")
    ∧ categorizeNews exampleWhaleSec = "macro_policy" := by
  constructor
  · intro item h
    simp only [categorizeNews, h, if_true]
  · decide

theorem categorize_macro_first_witness :
    macroPat (newsText exampleWhaleSec) = true
      ∧ categorizeNews exampleWhaleSec = "macro_policy" :=
  ⟨by decide, categorize_macro_first.1 exampleWhaleSec (by decide)⟩

/-- C2, counterexample: the spec's example item titled "Whale transfers
fifty million dollars to Binance amid new SEC filing" is categorized
macro_policy by the code (the sec substring matches the first rule), not
capital_flow as the claim requires. -/
theorem categorize_order_cex :
    categorizeNews exampleWhaleSec = "macro_policy"
      ∧ categorizeNews exampleWhaleSec ≠ "capital_flow" := by
  constructor
  · decide
  · decide

/-- C3: the code violates the max-2-per-category cap its own comment states
(scorer.py line 332): with no KOL post and three distinct items that all
categorize as capital_flow, a target of 5 selects all three; the inner fill
loop never re-checks the cap. -/
theorem select_category_cap_violation :
    ((selectTopItemsWithDiversity [] [whaleA, whaleB, whaleC] 5).filter
      (fun it => it.category == some "capital_flow")).length = 3 := by
  decide

theorem batchAux_join (limit : Nat) :
    ∀ (bs : List String) (buf : String),
      joinAll (batchAux limit bs buf) = buf ++ joinAll bs := by
  intro bs
  induction bs with
  | nil =>
    intro buf
    by_cases h : buf = ""
    · simp [batchAux, h, joinAll]
    · simp [batchAux, h, joinAll, String.append_empty]
  | cons b bs ih =>
    intro buf
    by_cases hflush : limit < buf.length + b.length
    · by_cases h : buf = ""
      · simp [batchAux, hflush, h, ih, joinAll, String.empty_append]
      · simp [batchAux, hflush, h, ih, joinAll, String.append_assoc]
    · simp [batchAux, hflush, ih, joinAll, String.append_assoc]

theorem batchAux_len (limit : Nat) :
    ∀ (bs : List String) (buf : String), (∀ b ∈ bs, b.length ≤ limit) →
      buf.length ≤ limit →
      ∀ c ∈ batchAux limit bs buf, c.length ≤ limit := by
  intro bs
  induction bs with
  | nil =>
    intro buf _ hbuf c hc
    by_cases h : buf = "" <;> simp [batchAux, h] at hc
    exact hc ▸ hbuf
  | cons b bs ih =>
    intro buf hbs hbuf c hc
    have hb : b.length ≤ limit := hbs b (by simp)
    have hbs2 : ∀ x ∈ bs, x.length ≤ limit := fun x hx => hbs x (by simp [hx])
    by_cases hflush : limit < buf.length + b.length
    · simp only [batchAux, if_pos hflush, List.mem_append] at hc
      rcases hc with hc | hc
      · by_cases h : buf = "" <;> simp [h] at hc
        exact hc ▸ hbuf
      · exact ih b hbs2 hb c hc
    · simp only [batchAux, if_neg hflush] at hc
      refine ih (buf ++ b) hbs2 ?_ c hc
      rw [String.length_append]
      omega

theorem batchAux_ne_empty (limit : Nat) :
    ∀ (bs : List String) (buf : String), ∀ c ∈ batchAux limit bs buf, c ≠ "" := by
  intro bs
  induction bs with
  | nil =>
    intro buf c hc
    by_cases h : buf = "" <;> simp [batchAux, h] at hc
    intro hce
    exact h (hc ▸ hce)
  | cons b bs ih =>
    intro buf c hc
    by_cases hflush : limit < buf.length + b.length
    · simp only [batchAux, if_pos hflush, List.mem_append] at hc
      rcases hc with hc | hc
      · by_cases h : buf = "" <;> simp [h] at hc
        intro hce
        exact h (hc ▸ hce)
      · exact ih b c hc
    · simp only [batchAux, if_neg hflush] at hc
      exact ih (buf ++ b) c hc

theorem batchAux_oversized_buf (limit : Nat) :
    ∀ (bs : List String) (buf : String), limit < buf.length →
      buf ∈ batchAux limit bs buf := by
  intro bs
  induction bs with
  | nil =>
    intro buf hbuf
    have h : buf ≠ "" := by
      intro he
      rw [he] at hbuf
      simp at hbuf
    simp [batchAux, h]
  | cons b bs ih =>
    intro buf hbuf
    have hflush : limit < buf.length + b.length := by omega
    have h : buf ≠ "" := by
      intro he
      rw [he] at hbuf
      simp at hbuf
    simp only [batchAux, if_pos hflush, h, if_neg, List.mem_append]
    left
    simp [h]

theorem batchAux_oversized (limit : Nat) :
    ∀ (bs : List String) (buf b : String), b ∈ bs → limit < b.length →
      b ∈ batchAux limit bs buf := by
  intro bs
  induction bs with
  | nil =>
    intro buf b hb
    simp at hb
  | cons b0 bs ih =>
    intro buf b hb hlong
    rcases List.mem_cons.mp hb with hb | hb
    · subst hb
      have hflush : limit < buf.length + b.length := by omega
      simp only [batchAux, if_pos hflush, List.mem_append]
      right
      exact batchAux_oversized_buf limit bs b hlong
    · by_cases hflush : limit < buf.length + b0.length
      · simp only [batchAux, if_pos hflush, List.mem_append]
        right
        exact ih b0 b hb hlong
      · simp only [batchAux, if_neg hflush]
        exact ih (buf ++ b0) b hb hlong

/-- C4, confirmed against the spec model: the Delivery Batcher emits batches
within the limit whenever every block is within the limit, never emits an
empty batch, loses and reorders nothing (concatenating the batches equals
concatenating the blocks), and emits a block longer than the limit as its
own oversized batch rather than truncating it. -/
theorem batch_blocks_spec (blocks : List String) (limit : Nat) :
    ((∀ b ∈ blocks, b.length ≤ limit) →
      ∀ c ∈ batchBlocks blocks limit, c.length ≤ limit)
    ∧ (∀ c ∈ batchBlocks blocks limit, c ≠ "")
    ∧ joinAll (batchBlocks blocks limit) = joinAll blocks
    ∧ (∀ b ∈ blocks, limit < b.length → b ∈ batchBlocks blocks limit) := by
  refine ⟨fun h => batchAux_len limit blocks "" h (by simp), ?_, ?_, ?_⟩
  · exact batchAux_ne_empty limit blocks ""
  · rw [batchBlocks, batchAux_join, String.empty_append]
  · exact fun b hb hlong => batchAux_oversized limit blocks "" b hb hlong

theorem batch_blocks_spec_witness :
    (∀ c ∈ batchBlocks ["aaa", "bbb", "cc"] 6, c.length ≤ 6)
      ∧ (∀ c ∈ batchBlocks ["aaa", "bbb", "cc", "ddddddddd"] 6, c ≠ "")
      ∧ joinAll (batchBlocks ["aaa", "bbb", "cc", "ddddddddd"] 6) =
          "aaabbbccddddddddd"
      ∧ "ddddddddd" ∈ batchBlocks ["aaa", "bbb", "cc", "ddddddddd"] 6 :=
  ⟨(batch_blocks_spec ["aaa", "bbb", "cc"] 6).1 (by decide),
   (batch_blocks_spec ["aaa", "bbb", "cc", "ddddddddd"] 6).2.1,
   ((batch_blocks_spec ["aaa", "bbb", "cc", "ddddddddd"] 6).2.2.1).trans (by decide),
   (batch_blocks_spec ["aaa", "bbb", "cc", "ddddddddd"] 6).2.2.2 "ddddddddd"
     (by decide) (by decide)⟩

theorem similarity_self (t : String) (h : extractKeywords t ≠ []) :
    calculateSimilarity t t = 1 := by
  have hK : (extractKeywords t).toFinset ≠ ∅ := by
    simpa [List.toFinset_eq_empty_iff] using h
  have hpos : 0 < (extractKeywords t).toFinset.card :=
    Finset.card_pos.mpr (Finset.nonempty_iff_ne_empty.mpr hK)
  simp only [calculateSimilarity]
  rw [if_neg (by simp [hK])]
  rw [Finset.inter_self, max_self, if_pos hpos]
  exact div_self (by exact_mod_cast Nat.pos_iff_ne_zero.mp hpos)

/-- C5, corrected: the keyword-overlap similarity always lies in the unit
interval; equal strings score exactly 1 provided their keyword set is
non-empty (not for every equal non-empty pair: a string whose words are all
shorter than three characters has an empty keyword set and scores 0);
disjoint keyword sets score 0; and an empty keyword set on either side
scores 0. -/
theorem similarity_props (a b : String) :
    (0 ≤ calculateSimilarity a b ∧ calculateSimilarity a b ≤ 1)
    ∧ (a = b → extractKeywords a ≠ [] → calculateSimilarity a b = 1)
    ∧ ((extractKeywords a).toFinset ∩ (extractKeywords b).toFinset = ∅ →
        calculateSimilarity a b = 0)
    ∧ (extractKeywords a = [] ∨ extractKeywords b = [] →
        calculateSimilarity a b = 0) := by
  refine ⟨⟨?_, ?_⟩, ?_, ?_, ?_⟩
  · simp only [calculateSimilarity]
    split
    · exact le_refl 0
    · split
      · positivity
      · exact le_refl 0
  · simp only [calculateSimilarity]
    split
    · exact zero_le_one
    · rename_i hne
      push_neg at hne
      split
      · rename_i hpos
        rw [div_le_one (by exact_mod_cast hpos)]
        have hsub : (extractKeywords a).toFinset ∩ (extractKeywords b).toFinset ⊆
            (extractKeywords a).toFinset := Finset.inter_subset_left
        have hcard := Finset.card_le_card hsub
        have hmax : (extractKeywords a).toFinset.card ≤
            max (extractKeywords a).toFinset.card (extractKeywords b).toFinset.card :=
          le_max_left _ _
        exact_mod_cast hcard.trans hmax
      · exact zero_le_one
  · intro hab h
    exact hab ▸ similarity_self a h
  · intro hdisj
    simp only [calculateSimilarity]
    split
    · rfl
    · rename_i hne
      push_neg at hne
      rw [hdisj]
      simp
  · intro hempty
    simp only [calculateSimilarity]
    rw [if_pos]
    rcases hempty with h | h
    · left
      simp [h]
    · right
      simp [h]

theorem similarity_props_witness :
    ("bitcoin" : String) = "bitcoin" ∧ extractKeywords "bitcoin" ≠ []
      ∧ calculateSimilarity "bitcoin" "bitcoin" = 1 :=
  ⟨rfl, by decide, (similarity_props "bitcoin" "bitcoin").2.1 rfl (by decide)⟩

/-- C5, counterexample: the string ab is non-empty and equal to itself, yet
its keyword set is empty (both boundaries drop words shorter than three
characters), so the similarity is 0, not 1 as the claim requires for every
pair of equal non-empty strings. -/
theorem similarity_equal_cex :
    ("ab" : String) ≠ "" ∧ calculateSimilarity "ab" "ab" = 0
      ∧ calculateSimilarity "ab" "ab" ≠ 1 := by
  refine ⟨by decide, by decide, by decide⟩

/-- C6, corrected: after adding an item to the cache, is_duplicate on the
item's stored text returns true provided that text's keyword set is
non-empty (self-similarity is then 1, above the 0.6 threshold); not for
every item: an item whose text extracts no keywords has self-similarity 0
and is not flagged. -/
theorem is_duplicate_after_add (cache : List (String × CEntry)) (item : Item)
    (now : String) (w : WriteOutcome) (cache1 : List (String × CEntry))
    (hadd : addToCache cache item now w = .ok cache1)
    (hkw : extractKeywords (item.text.getD (item.title.getD "")) ≠ []) :
    isDuplicate cache1 (item.text.getD (item.title.getD "")) = true := by
  have hc1 : cache1 = cache ++
      [(item.category.getD "unknown" ++ "_" ++ now,
        { text := some (item.text.getD (item.title.getD "")),
          timestamp := some now,
          category := some (item.category.getD "") })] := by
    cases w with
    | ok =>
      simp only [addToCache, saveCache, attemptWrite, Except.ok.injEq] at hadd
      exact hadd.symm
    | failed e =>
      simp only [addToCache, saveCache, attemptWrite, Except.ok.injEq] at hadd
      exact hadd.symm
  subst hc1
  simp only [isDuplicate, List.any_append, List.any_cons, List.any_nil,
    Bool.or_eq_true]
  right
  simp only [Option.getD_some, similarity_self _ hkw]
  left
  rw [decide_eq_true_iff]
  rw [show DEDUP_KEYWORD_THRESHOLD = mkRat 6 10 from rfl]
  norm_num

theorem is_duplicate_after_add_witness :
    isDuplicate [("unknown_2025-01-02",
      { text := some "bitcoin pumps hard", timestamp := some "2025-01-02",
        category := some "" })] "bitcoin pumps hard" = true :=
  is_duplicate_after_add [] keywordTextItem "2025-01-02" WriteOutcome.ok _
    rfl (by decide)

/-- C6, counterexample: adding the item with text ab (empty keyword set) and
then asking is_duplicate about that same text yields false, because the
self-similarity of a keyword-less text is 0, below the 0.6 threshold. -/
theorem dedup_reflexive_cex :
    addToCache [] shortTextItem "2025-01-02" WriteOutcome.ok =
      Except.ok [("unknown_2025-01-02",
        { text := some "ab", timestamp := some "2025-01-02",
          category := some "" })]
    ∧ isDuplicate [("unknown_2025-01-02",
        { text := some "ab", timestamp := some "2025-01-02",
          category := some "" })] "ab" = false := by
  exact ⟨rfl, by decide⟩

theorem pyLtChars_asymm :
    ∀ a b : List Char, pyLtChars a b = true → pyLtChars b a = false := by
  intro a
  induction a with
  | nil =>
    intro b hb
    cases b with
    | nil => simp [pyLtChars] at hb
    | cons y ys => simp [pyLtChars]
  | cons x xs ih =>
    intro b hb
    cases b with
    | nil => simp [pyLtChars] at hb
    | cons y ys =>
      simp only [pyLtChars, Bool.or_eq_true, Bool.and_eq_true,
        decide_eq_true_eq, beq_iff_eq] at hb
      simp only [pyLtChars, Bool.or_eq_false_iff, Bool.and_eq_false_iff,
        decide_eq_false_iff_not, beq_eq_false_iff_ne]
      rcases hb with hlt | ⟨heq, hrec⟩
      · constructor
        · omega
        · left
          intro hyx
          rw [hyx] at hlt
          omega
      · subst heq
        constructor
        · omega
        · right
          exact ih ys hrec

theorem pyLt_asymm (a b : String) (h : pyLt a b = true) : pyLt b a = false :=
  pyLtChars_asymm a.toList b.toList h

/-- C7, confirmed: after a successful cache load, an entry with a timestamp
older than the cutoff (the now-minus-retention-window instant, compared as
Python compares ISO strings) is absent from the in-memory cache, and a
persisted entry with a timestamp newer than the cutoff is present. -/
theorem load_cache_pruning (entries : List (String × CEntry)) (cutoff : String)
    (cache : List (String × CEntry))
    (hload : loadCache (.content entries) cutoff = .ok cache)
    (k : String) (v : CEntry) (hmem : (k, v) ∈ entries) :
    (pyLt (v.timestamp.getD "") cutoff = true → (k, v) ∉ cache)
    ∧ (pyLt cutoff (v.timestamp.getD "") = true → (k, v) ∈ cache) := by
  have hc : cache = pruneEntries entries cutoff := by
    simp only [loadCache, Except.ok.injEq] at hload
    exact hload.symm
  subst hc
  constructor
  · intro hold hin
    have := (List.mem_filter.mp hin).2
    rw [pyLt_asymm _ _ hold] at this
    exact Bool.false_ne_true this
  · intro hnew
    exact List.mem_filter.mpr ⟨hmem, hnew⟩

theorem load_cache_pruning_witness :
    (("old", ({ timestamp := some "2025-01-01" } : CEntry)) ∉
      pruneEntries
        [("old", { timestamp := some "2025-01-01" }),
         ("new", { timestamp := some "2025-01-09" })] "2025-01-05")
    ∧ (("new", ({ timestamp := some "2025-01-09" } : CEntry)) ∈
      pruneEntries
        [("old", { timestamp := some "2025-01-01" }),
         ("new", { timestamp := some "2025-01-09" })] "2025-01-05") :=
  ⟨(load_cache_pruning
      [("old", { timestamp := some "2025-01-01" }),
       ("new", { timestamp := some "2025-01-09" })] "2025-01-05" _ rfl
      "old" { timestamp := some "2025-01-01" } (by decide)).1 (by decide),
   (load_cache_pruning
      [("old", { timestamp := some "2025-01-01" }),
       ("new", { timestamp := some "2025-01-09" })] "2025-01-05" _ rfl
      "new" { timestamp := some "2025-01-09" } (by decide)).2 (by decide)⟩

/-- C8, confirmed: cache persistence failures never propagate.  A failing
read leaves the cache empty and load does not raise; a failing write is
caught by _save_cache (which returns normally, logging the error), and
add_to_cache returns normally with the entry still added to the in-memory
cache whatever the write outcome. -/
theorem cache_io_failures_swallowed :
    (∀ e cutoff, loadCache (.failed e) cutoff = .ok [])
    ∧ (∀ w, ∃ logs, saveCache w = .ok logs)
    ∧ (∀ cache item now w,
        addToCache cache item now w =
          .ok (cache ++ [(item.category.getD "unknown" ++ "_" ++ now,
            { text := some (item.text.getD (item.title.getD "")),
              timestamp := some now,
              category := some (item.category.getD "") })])) := by
  refine ⟨fun e cutoff => rfl, fun w => ?_, fun cache item now w => ?_⟩
  · cases w with
    | ok => exact ⟨[], rfl⟩
    | failed e => exact ⟨["Error saving cache: " ++ e], rfl⟩
  · cases w with
    | ok => rfl
    | failed e => rfl

theorem processEnhanced_spec (items : List Item)
    (results : List (Except String Item)) (hlen : results.length = items.length) :
    (processEnhanced items results).length = items.length
    ∧ ∀ (i : Nat) (e : String), results[i]? = some (Except.error e) →
        (processEnhanced items results)[i]? = items[i]? := by
  induction items generalizing results with
  | nil =>
    have : results = [] := List.length_eq_zero.mp (by simpa using hlen)
    subst this
    exact ⟨rfl, by intro i e h; simp at h⟩
  | cons orig origs ih =>
    cases results with
    | nil => simp at hlen
    | cons r rs =>
      have hlen2 : rs.length = origs.length := by simpa using hlen
      obtain ⟨ihlen, ihidx⟩ := ih rs hlen2
      constructor
      · simpa [processEnhanced] using ihlen
      · intro i e hi
        cases i with
        | zero =>
          simp only [List.getElem?_cons_zero, Option.some.injEq] at hi
          subst hi
          simp [processEnhanced]
        | succ j =>
          simp only [List.getElem?_cons_succ] at hi
          simpa [processEnhanced] using ihidx j e hi

/-- C9, confirmed: enhancement returns one item per input item in input
order: given the gathered per-item outcomes (one per input, as
asyncio.gather guarantees), the output has the same length, an item whose
enhancement failed appears unchanged at its original position, and if the
whole gather raises, the input list is returned unchanged. -/
theorem enhance_items_preserves (items : List Item)
    (results : List (Except String Item)) (hlen : results.length = items.length) :
    (enhanceItems items (.ok results)).length = items.length
    ∧ (∀ (i : Nat) (e : String), results[i]? = some (Except.error e) →
        (enhanceItems items (.ok results))[i]? = items[i]?)
    ∧ (∀ msg, enhanceItems items (.error msg) = items) := by
  obtain ⟨h1, h2⟩ := processEnhanced_spec items results hlen
  exact ⟨h1, h2, fun msg => rfl⟩

theorem enhance_items_preserves_witness :
    (enhanceItems [enhA, enhB] (.ok [.ok enhAplus, .error "boom"])).length = 2
    ∧ (enhanceItems [enhA, enhB] (.ok [.ok enhAplus, .error "boom"]))[1]? =
        some enhB :=
  ⟨(enhance_items_preserves [enhA, enhB] [.ok enhAplus, .error "boom"] rfl).1,
   ((enhance_items_preserves [enhA, enhB] [.ok enhAplus, .error "boom"] rfl).2.1
      1 "boom" rfl).trans (by decide)⟩

theorem firstPass_append (groups : String → List Item) (total : Nat) :
    ∀ (cats : List String) (sel : List Item) (cnt : String → Nat),
      ∃ t, (firstPass groups total cats sel cnt).1 = sel ++ t := by
  intro cats
  induction cats with
  | nil =>
    intro sel cnt
    exact ⟨[], by simp [firstPass]⟩
  | cons cat cats ih =>
    intro sel cnt
    by_cases h1 : total ≤ sel.length
    · exact ⟨[], by simp [firstPass, h1]⟩
    · cases hg : groups cat with
      | nil =>
        obtain ⟨t, ht⟩ := ih sel cnt
        exact ⟨t, by simp [firstPass, h1, hg, ht]⟩
      | cons hitem rest =>
        by_cases h2 : cnt cat < 1
        · obtain ⟨t, ht⟩ := ih (sel ++ [setCatSource hitem cat])
            (fun c => if c = cat then 1 else cnt c)
          exact ⟨setCatSource hitem cat :: t, by simp [firstPass, h1, hg, h2, ht]⟩
        · obtain ⟨t, ht⟩ := ih sel cnt
          exact ⟨t, by simp [firstPass, h1, hg, h2, ht]⟩

theorem fillFromCat_append (total : Nat) (cat : String) :
    ∀ (its sel : List Item) (cnt : String → Nat),
      ∃ t, (fillFromCat total cat its sel cnt).1 = sel ++ t := by
  intro its
  induction its with
  | nil =>
    intro sel cnt
    exact ⟨[], by simp [fillFromCat]⟩
  | cons it its ih =>
    intro sel cnt
    by_cases h1 : total ≤ sel.length
    · exact ⟨[], by simp [fillFromCat, h1]⟩
    · by_cases h2 : it ∈ sel
      · obtain ⟨t, ht⟩ := ih sel cnt
        exact ⟨t, by simp [fillFromCat, h1, h2, ht]⟩
      · obtain ⟨t, ht⟩ := ih (sel ++ [setCatSource it cat])
          (fun c => if c = cat then cnt cat + 1 else cnt c)
        exact ⟨setCatSource it cat :: t, by simp [fillFromCat, h1, h2, ht]⟩

theorem secondPass_append (groups : String → List Item) (total : Nat) :
    ∀ (cats : List String) (sel : List Item) (cnt : String → Nat),
      ∃ t, (secondPass groups total cats sel cnt).1 = sel ++ t := by
  intro cats
  induction cats with
  | nil =>
    intro sel cnt
    exact ⟨[], by simp [secondPass]⟩
  | cons cat cats ih =>
    intro sel cnt
    by_cases h1 : total ≤ sel.length
    · exact ⟨[], by simp [secondPass, h1]⟩
    · by_cases h2 : cnt cat < 2
      · obtain ⟨t1, ht1⟩ := fillFromCat_append total cat ((groups cat).drop 1) sel cnt
        obtain ⟨t2, ht2⟩ := ih (fillFromCat total cat ((groups cat).drop 1) sel cnt).1
          (fillFromCat total cat ((groups cat).drop 1) sel cnt).2
        refine ⟨t1 ++ t2, ?_⟩
        simp only [secondPass, if_neg h1, if_pos h2]
        rw [ht2, ht1, List.append_assoc]
      · obtain ⟨t, ht⟩ := ih sel cnt
        exact ⟨t, by simp [secondPass, h1, h2, ht]⟩

theorem kolTag_setCatSource (it : Item) (cat : String)
    (hc : cat ≠ "kol_insights") : kolTag (setCatSource it cat) = false := by
  simp [kolTag, setCatSource, hc]

theorem firstPass_countP (groups : String → List Item) (total : Nat) :
    ∀ (cats : List String) (sel : List Item) (cnt : String → Nat),
      (∀ c ∈ cats, c ≠ "kol_insights") →
      (firstPass groups total cats sel cnt).1.countP kolTag =
        sel.countP kolTag := by
  intro cats
  induction cats with
  | nil =>
    intro sel cnt _
    simp [firstPass]
  | cons cat cats ih =>
    intro sel cnt hcats
    have hc : cat ≠ "kol_insights" := hcats cat (by simp)
    have hcats2 : ∀ c ∈ cats, c ≠ "kol_insights" :=
      fun c hcmem => hcats c (by simp [hcmem])
    by_cases h1 : total ≤ sel.length
    · simp [firstPass, h1]
    · cases hg : groups cat with
      | nil => simp [firstPass, h1, hg, ih _ _ hcats2]
      | cons hitem rest =>
        by_cases h2 : cnt cat < 1
        · simp only [firstPass, if_neg h1, hg, if_pos h2]
          rw [ih _ _ hcats2, List.countP_append]
          simp [kolTag_setCatSource hitem cat hc]
        · simp [firstPass, h1, hg, h2, ih _ _ hcats2]

theorem fillFromCat_countP (total : Nat) (cat : String)
    (hc : cat ≠ "kol_insights") :
    ∀ (its sel : List Item) (cnt : String → Nat),
      (fillFromCat total cat its sel cnt).1.countP kolTag =
        sel.countP kolTag := by
  intro its
  induction its with
  | nil =>
    intro sel cnt
    simp [fillFromCat]
  | cons it its ih =>
    intro sel cnt
    by_cases h1 : total ≤ sel.length
    · simp [fillFromCat, h1]
    · by_cases h2 : it ∈ sel
      · simp [fillFromCat, h1, h2, ih]
      · simp only [fillFromCat, if_neg h1, if_neg h2]
        rw [ih, List.countP_append]
        simp [kolTag_setCatSource it cat hc]

theorem secondPass_countP (groups : String → List Item) (total : Nat) :
    ∀ (cats : List String) (sel : List Item) (cnt : String → Nat),
      (∀ c ∈ cats, c ≠ "kol_insights") →
      (secondPass groups total cats sel cnt).1.countP kolTag =
        sel.countP kolTag := by
  intro cats
  induction cats with
  | nil =>
    intro sel cnt _
    simp [secondPass]
  | cons cat cats ih =>
    intro sel cnt hcats
    have hc : cat ≠ "kol_insights" := hcats cat (by simp)
    have hcats2 : ∀ c ∈ cats, c ≠ "kol_insights" :=
      fun c hcmem => hcats c (by simp [hcmem])
    by_cases h1 : total ≤ sel.length
    · simp [secondPass, h1]
    · by_cases h2 : cnt cat < 2
      · simp only [secondPass, if_neg h1, if_pos h2]
        rw [ih _ _ hcats2, fillFromCat_countP total cat hc]
      · simp [secondPass, h1, h2, ih _ _ hcats2]

/-- C10, corrected: the diversity selection always returns at most
total_items items and contains at most one item tagged kol_insights; when a
KOL post is supplied AND total_items is at least 1, the first element of the
result is the first KOL post tagged kol_insights (for total_items = 0 the
result is empty, so the head clause needs the positivity hypothesis). -/
theorem select_diversity_invariants (kol_posts news_items : List Item)
    (total_items : Nat) :
    (selectTopItemsWithDiversity kol_posts news_items total_items).length ≤
      total_items
    ∧ (selectTopItemsWithDiversity kol_posts news_items total_items).countP
        kolTag ≤ 1
    ∧ (∀ k ks, kol_posts = k :: ks → 1 ≤ total_items →
        (selectTopItemsWithDiversity kol_posts news_items
          total_items).head? = some (setKolFields k)) := by
  have hcats : ∀ c ∈ CATEGORIES_SORTED, c ≠ "kol_insights" := by decide
  refine ⟨?_, ?_, ?_⟩
  · simp only [selectTopItemsWithDiversity]
    rw [List.length_take]
    exact min_le_left _ _
  · simp only [selectTopItemsWithDiversity]
    refine le_trans (List.Sublist.countP_le kolTag (List.take_sublist _ _)) ?_
    rw [secondPass_countP _ _ _ _ _ hcats, firstPass_countP _ _ _ _ _ hcats]
    cases kol_posts with
    | nil => simp [initSelection]
    | cons k ks =>
      simp only [initSelection]
      exact le_trans (List.countP_le_length _) (by simp)
  · intro k ks hk htotal
    subst hk
    obtain ⟨t1, ht1⟩ := firstPass_append (newsGroup news_items) total_items
      CATEGORIES_SORTED (initSelection (k :: ks)).1 (initSelection (k :: ks)).2
    obtain ⟨t2, ht2⟩ := secondPass_append (newsGroup news_items) total_items
      CATEGORIES_SORTED
      (firstPass (newsGroup news_items) total_items CATEGORIES_SORTED
        (initSelection (k :: ks)).1 (initSelection (k :: ks)).2).1
      (firstPass (newsGroup news_items) total_items CATEGORIES_SORTED
        (initSelection (k :: ks)).1 (initSelection (k :: ks)).2).2
    simp only [selectTopItemsWithDiversity]
    rw [ht2, ht1]
    simp only [initSelection]
    cases total_items with
    | zero => omega
    | succ n => simp

theorem select_diversity_invariants_witness :
    [exampleKol] = exampleKol :: ([] : List Item) ∧ 1 ≤ 5
      ∧ (selectTopItemsWithDiversity [exampleKol] [whaleA] 5).head? =
          some (setKolFields exampleKol) :=
  ⟨rfl, by omega,
   (select_diversity_invariants [exampleKol] [whaleA] 5).2.2 exampleKol []
     rfl (by omega)⟩

/-- C10, counterexample: with a non-empty KOL list but total_items 0, the
selection is empty, so its first element is not the KOL post; the head
clause of the claim fails without a positivity assumption on total_items. -/
theorem select_head_cex :
    selectTopItemsWithDiversity [exampleKol] [] 0 = []
    ∧ (selectTopItemsWithDiversity [exampleKol] [] 0).head? ≠
        some (setKolFields exampleKol) := by
  exact ⟨by decide, by decide⟩
